import Mathlib

/-!
# LEWAS backend: observation data model and infrastructure stack, verified

A shallow embedding of the LEWAS sensor-observation backend.  The CDK
infrastructure stack (`lewas-backend-infra-stack.ts`) is embedded as a pure
function from an environment to a stack declaration.  The observation store
access layer (key construction, timestamp canonicalisation, ingestion
validation, query patterns, pagination) is embedded as pure functions over a
list-of-records model of the DynamoDB table, following the data-model and
access-pattern contract of the specification where the application source is
not part of the repository snapshot.
-/

namespace LewasVerify

/-! ## Lexicographic ordering on byte strings

DynamoDB compares string sort keys bytewise; canonical ISO-8601 timestamps
are ASCII, so a string is modelled as its list of byte values. -/

/-- Strict bytewise lexicographic order on byte strings. -/
def lexLt : List Nat → List Nat → Bool
  | _, [] => false
  | [], _ :: _ => true
  | a :: as, b :: bs =>
    if a < b then true
    else if b < a then false
    else lexLt as bs

/-- Non-strict bytewise lexicographic order. -/
def lexLe (l1 l2 : List Nat) : Bool := !(lexLt l2 l1)

@[simp] theorem lexLt_nil_right (l : List Nat) : lexLt l [] = false := by
  cases l <;> rfl

@[simp] theorem lexLt_nil_cons (b : Nat) (bs : List Nat) :
    lexLt [] (b :: bs) = true := rfl

theorem lexLt_cons_cons (a b : Nat) (as bs : List Nat) :
    lexLt (a :: as) (b :: bs) =
      if a < b then true else if b < a then false else lexLt as bs := rfl

theorem lexLt_irrefl : ∀ l : List Nat, lexLt l l = false
  | [] => rfl
  | a :: as => by
    rw [lexLt_cons_cons, if_neg (Nat.lt_irrefl a), if_neg (Nat.lt_irrefl a)]
    exact lexLt_irrefl as

theorem lexLt_asymm : ∀ l1 l2 : List Nat, lexLt l1 l2 = true → lexLt l2 l1 = false
  | _, [], h => by simp at h
  | [], _ :: _, _ => by simp
  | a :: as, b :: bs, h => by
    rw [lexLt_cons_cons] at h
    rw [lexLt_cons_cons]
    by_cases h1 : a < b
    · simp [Nat.lt_asymm h1, h1]
    · by_cases h2 : b < a
      · simp [h1, h2] at h
      · simp only [h1, h2, if_false] at h
        simp only [h1, h2, if_false]
        exact lexLt_asymm as bs h

theorem lexLt_trans : ∀ l1 l2 l3 : List Nat,
    lexLt l1 l2 = true → lexLt l2 l3 = true → lexLt l1 l3 = true
  | _, l2, [], _, h2 => by simp at h2
  | [], _, _ :: _, _, _ => by simp
  | _ :: _, [], _ :: _, h1, _ => by simp at h1
  | a :: as, b :: bs, c :: cs, h1, h2 => by
    rw [lexLt_cons_cons] at h1 h2
    rw [lexLt_cons_cons]
    by_cases hab : a < b
    · by_cases hbc : b < c
      · simp [Nat.lt_trans hab hbc]
      · by_cases hcb : c < b
        · simp [hbc, hcb] at h2
        · have hbceq : b = c := by omega
          subst hbceq
          simp [hab]
    · by_cases hba : b < a
      · simp [hab, hba] at h1
      · have habeq : a = b := by omega
        subst habeq
        simp only [Nat.lt_irrefl, if_false] at h1
        by_cases hbc : a < c
        · simp [hbc]
        · by_cases hcb : c < a
          · simp [hbc, hcb] at h2
          · have haceq : a = c := by omega
            subst haceq
            simp only [Nat.lt_irrefl, if_false] at h2 ⊢
            exact lexLt_trans as bs cs h1 h2

theorem lexLt_connex : ∀ l1 l2 : List Nat,
    lexLt l1 l2 = false → lexLt l2 l1 = false → l1 = l2
  | [], [], _, _ => rfl
  | [], _ :: _, h1, _ => by simp at h1
  | _ :: _, [], _, h2 => by simp at h2
  | a :: as, b :: bs, h1, h2 => by
    rw [lexLt_cons_cons] at h1 h2
    by_cases hab : a < b
    · simp [hab] at h1
    · by_cases hba : b < a
      · simp [hba] at h2
      · have habeq : a = b := by omega
        subst habeq
        simp only [Nat.lt_irrefl, if_false] at h1 h2
        rw [lexLt_connex as bs h1 h2]

/-- Lexicographic comparison of equal-length prefixes decides the comparison
of the concatenations unless the prefixes are equal. -/
theorem lexLt_append : ∀ l1 l2 r1 r2 : List Nat, l1.length = l2.length →
    lexLt (l1 ++ r1) (l2 ++ r2) = if l1 = l2 then lexLt r1 r2 else lexLt l1 l2
  | [], [], r1, r2, _ => by simp
  | [], _ :: _, _, _, h => by simp at h
  | _ :: _, [], _, _, h => by simp at h
  | a :: as, b :: bs, r1, r2, h => by
    have h' : as.length = bs.length := by simpa using h
    by_cases hab : a = b
    · subst hab
      have ih := lexLt_append as bs r1 r2 h'
      rw [List.cons_append, List.cons_append, lexLt_cons_cons,
        if_neg (Nat.lt_irrefl a), if_neg (Nat.lt_irrefl a), ih]
      by_cases he : as = bs
      · simp [he]
      · have hne : a :: as ≠ a :: bs := by simp [he]
        rw [if_neg he, if_neg hne, lexLt_cons_cons,
          if_neg (Nat.lt_irrefl a), if_neg (Nat.lt_irrefl a)]
    · have hne : a :: as ≠ b :: bs := by simp [hab]
      rw [List.cons_append, List.cons_append, lexLt_cons_cons, if_neg hne,
        lexLt_cons_cons]
      by_cases h1 : a < b
      · simp [h1]
      · by_cases h2 : b < a
        · simp [h1, h2]
        · omega

/-! ## Zero-padded decimal rendering

`padDigits w n` is the `w`-character zero-padded decimal rendering of `n`
(as ASCII byte values), most significant digit first. -/

/-- `w`-wide zero-padded decimal rendering of a natural number, as ASCII
digit bytes, most significant digit first. -/
def padDigits : Nat → Nat → List Nat
  | 0, _ => []
  | w + 1, n => (48 + n / 10 ^ w) :: padDigits w (n % 10 ^ w)

@[simp] theorem padDigits_length : ∀ w n, (padDigits w n).length = w
  | 0, _ => rfl
  | w + 1, n => by simp [padDigits, padDigits_length w]

theorem lexLt_padDigits : ∀ w a b, a < 10 ^ w → b < 10 ^ w →
    lexLt (padDigits w a) (padDigits w b) = decide (a < b)
  | 0, a, b, ha, hb => by
    simp only [pow_zero, Nat.lt_one_iff] at ha hb
    subst ha; subst hb
    simp [padDigits]
  | w + 1, a, b, ha, hb => by
    have hB : 0 < 10 ^ w := Nat.pos_pow_of_pos w (by omega)
    have hpow : (10 : Nat) ^ (w + 1) = 10 ^ w * 10 := pow_succ 10 w
    have haq : a / 10 ^ w < 10 := by
      rw [Nat.div_lt_iff_lt_mul hB]; omega
    have hbq : b / 10 ^ w < 10 := by
      rw [Nat.div_lt_iff_lt_mul hB]; omega
    have har : a % 10 ^ w < 10 ^ w := Nat.mod_lt _ hB
    have hbr : b % 10 ^ w < 10 ^ w := Nat.mod_lt _ hB
    have ih := lexLt_padDigits w (a % 10 ^ w) (b % 10 ^ w) har hbr
    have hax : a = 10 ^ w * (a / 10 ^ w) + a % 10 ^ w := (Nat.div_add_mod a (10 ^ w)).symm
    have hbx : b = 10 ^ w * (b / 10 ^ w) + b % 10 ^ w := (Nat.div_add_mod b (10 ^ w)).symm
    rw [padDigits, padDigits, lexLt_cons_cons, ih]
    by_cases h1 : a / 10 ^ w < b / 10 ^ w
    · rw [if_pos (by omega)]
      have hab : a < b := by
        calc a = 10 ^ w * (a / 10 ^ w) + a % 10 ^ w := hax
          _ < 10 ^ w * (a / 10 ^ w) + 10 ^ w := by omega
          _ = 10 ^ w * (a / 10 ^ w + 1) := by ring
          _ ≤ 10 ^ w * (b / 10 ^ w) := Nat.mul_le_mul_left _ (by omega)
          _ ≤ b := by omega
      simp [hab]
    · by_cases h2 : b / 10 ^ w < a / 10 ^ w
      · rw [if_neg (by omega), if_pos (by omega)]
        have hba : b < a := by
          calc b = 10 ^ w * (b / 10 ^ w) + b % 10 ^ w := hbx
            _ < 10 ^ w * (b / 10 ^ w) + 10 ^ w := by omega
            _ = 10 ^ w * (b / 10 ^ w + 1) := by ring
            _ ≤ 10 ^ w * (a / 10 ^ w) := Nat.mul_le_mul_left _ (by omega)
            _ ≤ a := by omega
        simp [Nat.lt_asymm hba]
      · have hq : a / 10 ^ w = b / 10 ^ w := by omega
        rw [if_neg (by omega), if_neg (by omega)]
        have key : (a < b) ↔ (a % 10 ^ w < b % 10 ^ w) := by
          constructor
          · intro hlt
            by_contra hc
            push_neg at hc
            have hba : b ≤ a := by
              calc b = 10 ^ w * (b / 10 ^ w) + b % 10 ^ w := hbx
                _ ≤ 10 ^ w * (b / 10 ^ w) + a % 10 ^ w := Nat.add_le_add_left hc _
                _ = 10 ^ w * (a / 10 ^ w) + a % 10 ^ w := by rw [hq]
                _ = a := hax.symm
            omega
          · intro hlt
            calc a = 10 ^ w * (a / 10 ^ w) + a % 10 ^ w := hax
              _ < 10 ^ w * (a / 10 ^ w) + b % 10 ^ w := Nat.add_lt_add_left hlt _
              _ = 10 ^ w * (b / 10 ^ w) + b % 10 ^ w := by rw [hq]
              _ = b := hbx.symm
        simp [key]

theorem padDigits_inj (w a b : Nat) (ha : a < 10 ^ w) (hb : b < 10 ^ w)
    (h : padDigits w a = padDigits w b) : a = b := by
  by_cases hab : a < b
  · have := lexLt_padDigits w a b ha hb
    rw [h, lexLt_irrefl] at this
    simp [hab] at this
  · by_cases hba : b < a
    · have := lexLt_padDigits w b a hb ha
      rw [h, lexLt_irrefl] at this
      simp [hba] at this
    · omega

/-! ## Canonical ISO-8601 timestamps

A timestamp `YYYY-MM-DDTHH:MM:SS.mmmZ` (UTC, millisecond precision), the
canonical storage form required by the data-model contract. -/

/-- A UTC timestamp with millisecond precision. -/
structure Timestamp where
  year : Nat
  month : Nat
  day : Nat
  hour : Nat
  minute : Nat
  second : Nat
  milli : Nat
deriving DecidableEq

/-- The timestamp fields, most significant first: chronological order is
lexicographic order on this list. -/
def Timestamp.fields (t : Timestamp) : List Nat :=
  [t.year, t.month, t.day, t.hour, t.minute, t.second, t.milli]

/-- Field ranges of a well-formed timestamp (as produced by the
normaliser). -/
def Timestamp.valid (t : Timestamp) : Bool :=
  t.year ≤ 9999 && 1 ≤ t.month && t.month ≤ 12 && 1 ≤ t.day && t.day ≤ 31 &&
    t.hour ≤ 23 && t.minute ≤ 59 && t.second ≤ 59 && t.milli ≤ 999

/-- The canonical `YYYY-MM-DDTHH:MM:SS.mmmZ` rendering of a timestamp, as a
byte string (45 is `-`, 84 is `T`, 58 is `:`, 46 is `.`, 90 is `Z`). -/
def renderTs (t : Timestamp) : List Nat :=
  padDigits 4 t.year ++ 45 :: (padDigits 2 t.month ++ 45 :: (padDigits 2 t.day ++
    84 :: (padDigits 2 t.hour ++ 58 :: (padDigits 2 t.minute ++
    58 :: (padDigits 2 t.second ++ 46 :: (padDigits 3 t.milli ++ 90 :: []))))))

/-- Strict chronological order on timestamps. -/
def tsLt (t1 t2 : Timestamp) : Bool := lexLt t1.fields t2.fields

/-- Non-strict chronological order on timestamps. -/
def tsLe (t1 t2 : Timestamp) : Bool := !(tsLt t2 t1)

/-- One field of the rendering: a zero-padded field followed by a separator
byte translates one `cons` step of the field-list comparison. -/
theorem lexLt_pad_step (w n1 n2 sep : Nat) (r1 r2 f1 f2 : List Nat)
    (hn1 : n1 < 10 ^ w) (hn2 : n2 < 10 ^ w)
    (ih : lexLt r1 r2 = lexLt f1 f2) :
    lexLt (padDigits w n1 ++ sep :: r1) (padDigits w n2 ++ sep :: r2) =
      lexLt (n1 :: f1) (n2 :: f2) := by
  rw [lexLt_append _ _ _ _ (by rw [padDigits_length, padDigits_length]),
    lexLt_cons_cons]
  by_cases h : n1 = n2
  · subst h
    rw [if_pos rfl, lexLt_cons_cons, if_neg (Nat.lt_irrefl n1),
      if_neg (Nat.lt_irrefl n1), if_neg (Nat.lt_irrefl sep),
      if_neg (Nat.lt_irrefl sep), ih]
  · have hne : padDigits w n1 ≠ padDigits w n2 := fun hc =>
      h (padDigits_inj w n1 n2 hn1 hn2 hc)
    rw [if_neg hne, lexLt_padDigits w n1 n2 hn1 hn2, lexLt_cons_cons]
    by_cases h1 : n1 < n2
    · simp [h1]
    · by_cases h2 : n2 < n1
      · simp [h1, h2]
      · omega

/-- Bounds of a valid timestamp, with the powers of ten evaluated. -/
theorem valid_bounds (t : Timestamp) (h : t.valid = true) :
    t.year < 10 ^ 4 ∧ t.month < 10 ^ 2 ∧ t.day < 10 ^ 2 ∧ t.hour < 10 ^ 2 ∧
      t.minute < 10 ^ 2 ∧ t.second < 10 ^ 2 ∧ t.milli < 10 ^ 3 := by
  simp only [Timestamp.valid, Bool.and_eq_true, decide_eq_true_eq] at h
  norm_num
  omega

/-- Canonical renderings compare bytewise-lexicographically exactly as the
underlying timestamps compare chronologically. -/
theorem lexLt_renderTs (t1 t2 : Timestamp)
    (h1 : t1.valid = true) (h2 : t2.valid = true) :
    lexLt (renderTs t1) (renderTs t2) = tsLt t1 t2 := by
  obtain ⟨hy1, hmo1, hd1, hh1, hmi1, hs1, hms1⟩ := valid_bounds t1 h1
  obtain ⟨hy2, hmo2, hd2, hh2, hmi2, hs2, hms2⟩ := valid_bounds t2 h2
  unfold renderTs tsLt Timestamp.fields
  refine lexLt_pad_step 4 _ _ 45 _ _ _ _ hy1 hy2 ?_
  refine lexLt_pad_step 2 _ _ 45 _ _ _ _ hmo1 hmo2 ?_
  refine lexLt_pad_step 2 _ _ 84 _ _ _ _ hd1 hd2 ?_
  refine lexLt_pad_step 2 _ _ 58 _ _ _ _ hh1 hh2 ?_
  refine lexLt_pad_step 2 _ _ 58 _ _ _ _ hmi1 hmi2 ?_
  refine lexLt_pad_step 2 _ _ 46 _ _ _ _ hs1 hs2 ?_
  refine lexLt_pad_step 3 _ _ 90 _ _ _ _ hms1 hms2 ?_
  rfl

/-- Chronological comparison of the field lists is reflexive-free and
total; two timestamps with neither strictly earlier are equal. -/
theorem tsLt_connex (t1 t2 : Timestamp)
    (h1 : tsLt t1 t2 = false) (h2 : tsLt t2 t1 = false) : t1 = t2 := by
  have hf : t1.fields = t2.fields := lexLt_connex _ _ h1 h2
  cases t1; cases t2
  simpa [Timestamp.fields] using hf

/-- The canonical rendering is injective on valid timestamps. -/
theorem renderTs_inj (t1 t2 : Timestamp)
    (h1 : t1.valid = true) (h2 : t2.valid = true)
    (h : renderTs t1 = renderTs t2) : t1 = t2 := by
  apply tsLt_connex t1 t2
  · rw [← lexLt_renderTs t1 t2 h1 h2, h, lexLt_irrefl]
  · rw [← lexLt_renderTs t2 t1 h2 h1, h, lexLt_irrefl]

/-! ## Observations and the table model

One sensor reading, with the denormalised reference-data fields, as stored
in the DynamoDB table.  The table is modelled as a list of records; the
primary key of a record is the pair of its partition attribute
(`sensor_id`, the instrument identifier string) and its sort attribute
(`datetime`, the canonical ISO-8601 timestamp string). -/

/-- One stored sensor observation. -/
structure Observation where
  instrument_id : String
  datetime : Timestamp
  metric_id : Int
  unit_id : Int
  value : Rat
  stderr : Option Rat
  medium : String
  metric_name : String
  unit_name : String
deriving DecidableEq

/-- The stored sort-key string of an observation: the canonical rendering
of its timestamp. -/
def Observation.sortKey (o : Observation) : List Nat := renderTs o.datetime

/-- The observation store: the list of records in the table. -/
abbrev Store := List Observation

/-- Two records agree on the composite primary key `(sensor_id, datetime)`
exactly when both stored key attributes coincide. -/
def sameKey (a b : Observation) : Bool :=
  a.instrument_id == b.instrument_id && a.sortKey == b.sortKey

/-- Modelled from the spec: persisting one observation is a DynamoDB
`put_item`, which replaces any existing record with the same composite
primary key (overwrite-upsert) and never duplicates. -/
def putObservation (s : Store) (o : Observation) : Store :=
  o :: s.filter (fun x => !(sameKey x o))

theorem sameKey_refl (o : Observation) : sameKey o o = true := by
  simp [sameKey]

theorem sameKey_symm (a b : Observation) (h : sameKey a b = true) :
    sameKey b a = true := by
  simp only [sameKey, Bool.and_eq_true, beq_iff_eq] at h ⊢
  exact ⟨h.1.symm, h.2.symm⟩

theorem sameKey_trans (a b c : Observation)
    (h1 : sameKey a b = true) (h2 : sameKey b c = true) : sameKey a c = true := by
  simp only [sameKey, Bool.and_eq_true, beq_iff_eq] at h1 h2 ⊢
  exact ⟨h1.1.trans h2.1, h1.2.trans h2.2⟩

/-! ## Query access patterns

Modelled from the spec: DynamoDB `Query` returns the matching records of a
partition ordered by the sort-key string, compared bytewise; the metric and
unit global secondary indexes project all attributes of the same records. -/

/-- Sort-order relation used by the store: bytewise comparison of the
stored sort-key strings. -/
def obsLe (a b : Observation) : Prop :=
  lexLt b.sortKey a.sortKey = false

/-- Strict version of the store sort order. -/
def obsLt (a b : Observation) : Prop :=
  lexLt a.sortKey b.sortKey = true

instance : DecidableRel obsLe := fun a b =>
  inferInstanceAs (Decidable (lexLt b.sortKey a.sortKey = false))

instance : DecidableRel obsLt := fun a b =>
  inferInstanceAs (Decidable (lexLt a.sortKey b.sortKey = true))

instance : IsTotal Observation obsLe := by
  constructor
  intro a b
  unfold obsLe
  by_cases h : lexLt b.sortKey a.sortKey = true
  · right
    exact lexLt_asymm _ _ h
  · left
    simpa using h

instance : IsTrans Observation obsLe := by
  constructor
  intro a b c hab hbc
  unfold obsLe at hab hbc ⊢
  by_cases h : lexLt c.sortKey a.sortKey = true
  · by_cases hbc' : lexLt b.sortKey c.sortKey = true
    · have := lexLt_trans _ _ _ hbc' h
      rw [this] at hab
      cases hab
    · have hcb : lexLt c.sortKey b.sortKey = false := hbc
      have hbceq : b.sortKey = c.sortKey := lexLt_connex _ _ (by simpa using hbc') hcb
      rw [← hbceq] at h
      rw [h] at hab
      cases hab
  · simpa using h

/-- Modelled from the spec: query all observations of one instrument,
ordered by timestamp ascending. -/
def queryByInstrument (s : Store) (iid : String) : List Observation :=
  List.insertionSort obsLe (s.filter (fun o => o.instrument_id == iid))

/-- Modelled from the spec: query all observations of one metric through
the `metric_id-datetime-index` secondary index view, ordered by timestamp
ascending. -/
def queryByMetric (s : Store) (mid : Int) : List Observation :=
  List.insertionSort obsLe (s.filter (fun o => o.metric_id == mid))

/-- Modelled from the spec: query all observations of one unit through the
`unit_id-datetime-index` secondary index view, ordered by timestamp
ascending. -/
def queryByUnit (s : Store) (uid : Int) : List Observation :=
  List.insertionSort obsLe (s.filter (fun o => o.unit_id == uid))

/-- Modelled from the spec: range query over one instrument with inclusive
`start`/`end` bounds compared on the stored sort-key strings, ordered by
timestamp ascending. -/
def queryByInstrumentRange (s : Store) (iid : String) (tstart tend : Timestamp) :
    List Observation :=
  List.insertionSort obsLe (s.filter (fun o =>
    o.instrument_id == iid && lexLe (renderTs tstart) o.sortKey &&
      lexLe o.sortKey (renderTs tend)))

theorem lexLt_of_not_gt_of_ne (a b : List Nat)
    (h1 : lexLt b a = false) (h2 : a ≠ b) : lexLt a b = true := by
  by_cases h : lexLt a b = true
  · exact h
  · exact absurd (lexLt_connex a b (by simpa using h) h1) h2

/-- A run sorted by the non-strict store order whose sort keys are pairwise
distinct is sorted by the strict store order. -/
theorem pairwise_obsLt_of_sorted (l : List Observation)
    (hs : List.Sorted obsLe l)
    (hne : List.Pairwise (fun a b => a.sortKey ≠ b.sortKey) l) :
    List.Pairwise obsLt l := by
  refine (List.Pairwise.and hs hne).imp ?_
  intro a b h
  exact lexLt_of_not_gt_of_ne _ _ h.1 h.2

/-! ## Latest observation per instrument -/

/-- Modelled from the spec: the record of a partition with the maximum sort
key (a DynamoDB query with descending scan order and limit one). -/
def maxByKey : List Observation → Option Observation
  | [] => none
  | o :: rest =>
    match maxByKey rest with
    | none => some o
    | some m => if lexLt m.sortKey o.sortKey then some o else some m

/-- Modelled from the spec: the single most-recent observation of one
instrument, if the instrument has any observation. -/
def latestFor (s : Store) (iid : String) : Option Observation :=
  maxByKey (s.filter (fun o => o.instrument_id == iid))

/-- Modelled from the spec: the latest observation of every known
instrument; instruments with no observation contribute nothing. -/
def latestPerInstrument (instruments : List String) (s : Store) :
    List Observation :=
  instruments.filterMap (fun iid => latestFor s iid)

theorem maxByKey_eq_none : ∀ l : List Observation, maxByKey l = none ↔ l = []
  | [] => by simp [maxByKey]
  | o :: rest => by
    simp only [maxByKey]
    constructor
    · intro h
      cases hm : maxByKey rest with
      | none => rw [hm] at h; cases h
      | some m => rw [hm] at h; dsimp at h; split at h <;> cases h
    · intro h
      cases h

theorem maxByKey_mem : ∀ (l : List Observation) (m : Observation),
    maxByKey l = some m → m ∈ l
  | [], m, h => by cases h
  | o :: rest, m, h => by
    simp only [maxByKey] at h
    cases hm : maxByKey rest with
    | none =>
      rw [hm] at h
      cases h
      exact List.mem_cons_self _ _
    | some m' =>
      rw [hm] at h
      dsimp at h
      split at h
      · cases h
        exact List.mem_cons_self _ _
      · cases h
        exact List.mem_cons_of_mem _ (maxByKey_mem rest m hm)

theorem maxByKey_max : ∀ (l : List Observation) (m : Observation),
    maxByKey l = some m → ∀ o ∈ l, lexLt m.sortKey o.sortKey = false
  | [], m, h => by cases h
  | o :: rest, m, h => by
    intro x hx
    simp only [maxByKey] at h
    cases hm : maxByKey rest with
    | none =>
      rw [hm] at h
      cases h
      have hrest : rest = [] := (maxByKey_eq_none rest).mp hm
      subst hrest
      rcases List.mem_cons.mp hx with hxo | hxr
      · rw [hxo, lexLt_irrefl]
      · cases hxr
    | some m' =>
      rw [hm] at h
      dsimp at h
      by_cases hlt : lexLt m'.sortKey o.sortKey = true
      · rw [if_pos hlt] at h
        cases h
        rcases List.mem_cons.mp hx with hxo | hxr
        · rw [hxo, lexLt_irrefl]
        · have ih := maxByKey_max rest m' hm x hxr
          by_cases hc : lexLt o.sortKey x.sortKey = true
          · rw [lexLt_trans _ _ _ hlt hc] at ih
            cases ih
          · simpa using hc
      · rw [if_neg hlt] at h
        cases h
        rcases List.mem_cons.mp hx with hxo | hxr
        · rw [hxo]
          simpa using hlt
        · exact maxByKey_max rest m hm x hxr

/-! ## Pagination -/

/-- Modelled from the spec: the part of a query result strictly after an
opaque continuation token (exclusive-start-key semantics); no token means
the result is read from the beginning. -/
def afterCursor (all : List Observation) : Option (List Nat) → List Observation
  | none => all
  | some c => all.filter (fun o => lexLt c o.sortKey)

/-- Modelled from the spec: one page of a paginated query: up to `limit`
records from the resume position, together with an opaque continuation
token (the sort key of the last returned record) exactly when more records
remain. -/
def pageQuery (all : List Observation) (limit : Nat) (cur : Option (List Nat)) :
    List Observation × Option (List Nat) :=
  if limit < (afterCursor all cur).length then
    ((afterCursor all cur).take limit,
      ((afterCursor all cur).take limit).getLast?.map Observation.sortKey)
  else ((afterCursor all cur).take limit, none)

/-- Walking the pages: feed each returned continuation token into the next
identical query; `fuel` bounds the number of pages fetched. -/
def walkPages (all : List Observation) (limit : Nat) :
    Nat → Option (List Nat) → List Observation
  | 0, _ => []
  | fuel + 1, cur =>
    match pageQuery all limit cur with
    | (page, none) => page
    | (page, some c) => page ++ walkPages all limit fuel (some c)

/-- In a strictly sorted run, every element is the last element or sorts
strictly before it. -/
theorem pairwise_lt_getLast : ∀ (l : List Observation), l.Pairwise obsLt →
    ∀ (hne : l ≠ []) (x : Observation), x ∈ l →
      x = l.getLast hne ∨ obsLt x (l.getLast hne)
  | [], _, hne, _, _ => absurd rfl hne
  | [a], _, _, x, hx => by
    left
    simpa using hx
  | a :: b :: t, h, hne, x, hx => by
    have hbt : (b :: t) ≠ [] := List.cons_ne_nil b t
    have hlast : (a :: b :: t).getLast hne = (b :: t).getLast hbt :=
      List.getLast_cons hbt
    rcases List.mem_cons.mp hx with hxa | hx'
    · right
      rw [hlast, hxa]
      exact (List.pairwise_cons.mp h).1 _ (List.getLast_mem hbt)
    · rcases pairwise_lt_getLast (b :: t) (List.pairwise_cons.mp h).2 hbt x hx'
        with h1 | h1
      · left; rw [hlast]; exact h1
      · right; rw [hlast]; exact h1

/-- Filtering a strictly sorted concatenation for records strictly after
the last record of the first part yields exactly the second part. -/
theorem filter_after_getLast (t d : List Observation)
    (hp : (t ++ d).Pairwise obsLt) (hne : t ≠ []) :
    (t ++ d).filter (fun o => lexLt ((t.getLast hne).sortKey) o.sortKey) = d := by
  rw [List.filter_append]
  obtain ⟨hpt, hpd, hcross⟩ := List.pairwise_append.mp hp
  have hl : t.filter (fun o => lexLt ((t.getLast hne).sortKey) o.sortKey) = [] := by
    rw [List.filter_eq_nil_iff]
    intro x hx
    rcases pairwise_lt_getLast t hpt hne x hx with h1 | h1
    · rw [h1]
      simp [lexLt_irrefl]
    · simp [lexLt_asymm _ _ h1]
  have hr : d.filter (fun o => lexLt ((t.getLast hne).sortKey) o.sortKey) = d := by
    rw [List.filter_eq_self]
    intro x hx
    simpa [obsLt] using hcross _ (List.getLast_mem hne) _ hx
  rw [hl, hr, List.nil_append]

/-- Walking the pages of a strictly sorted result with positive page limit
returns the whole remaining result: no gap and no duplicate across page
boundaries. -/
theorem walkPages_eq (all : List Observation) (limit : Nat) (hl : 0 < limit)
    (hs : all.Pairwise obsLt) :
    ∀ (fuel : Nat) (cur : Option (List Nat)),
      (afterCursor all cur).length ≤ fuel * limit →
      walkPages all limit fuel cur = afterCursor all cur
  | 0, cur, hlen => by
    have h0 : (afterCursor all cur).length = 0 := by simpa using hlen
    rw [List.length_eq_zero] at h0
    rw [h0]
    rfl
  | fuel + 1, cur, hlen => by
    have hrem : (afterCursor all cur).Pairwise obsLt := by
      cases cur with
      | none => exact hs
      | some c => exact List.Pairwise.sublist (List.filter_sublist all) hs
    by_cases hbig : limit < (afterCursor all cur).length
    · have hpagene : (afterCursor all cur).take limit ≠ [] := by
        have : ((afterCursor all cur).take limit).length = limit := by
          rw [List.length_take]
          omega
        intro hc
        rw [hc] at this
        simp at this
        omega
      have hget := List.getLast?_eq_getLast ((afterCursor all cur).take limit) hpagene
      have hsplit : (afterCursor all cur).take limit ++ (afterCursor all cur).drop limit
          = afterCursor all cur := List.take_append_drop limit (afterCursor all cur)
      have hmemrem : ((afterCursor all cur).take limit).getLast hpagene ∈ afterCursor all cur :=
        List.take_subset limit _ (List.getLast_mem hpagene)
      have hstep : afterCursor all
          (some (((afterCursor all cur).take limit).getLast hpagene).sortKey) =
          (afterCursor all cur).drop limit := by
        have hfilter : (afterCursor all cur).filter
            (fun o => lexLt ((((afterCursor all cur).take limit).getLast hpagene).sortKey) o.sortKey)
            = (afterCursor all cur).drop limit := by
          have h2 := filter_after_getLast ((afterCursor all cur).take limit)
            ((afterCursor all cur).drop limit) (by rw [hsplit]; exact hrem) hpagene
          rw [hsplit] at h2
          exact h2
        cases cur with
        | none => exact hfilter
        | some c0 =>
          have hmemf : ((afterCursor all (some c0)).take limit).getLast hpagene ∈
              List.filter (fun o => lexLt c0 o.sortKey) all := hmemrem
          have hc0 := List.of_mem_filter hmemf
          calc afterCursor all (some ((((afterCursor all (some c0)).take limit).getLast hpagene).sortKey))
              = all.filter (fun o => lexLt ((((afterCursor all (some c0)).take limit).getLast hpagene).sortKey) o.sortKey) := rfl
            _ = all.filter (fun o =>
                  lexLt ((((afterCursor all (some c0)).take limit).getLast hpagene).sortKey) o.sortKey
                    && lexLt c0 o.sortKey) := by
                apply List.filter_congr
                intro x _
                by_cases hx : lexLt ((((afterCursor all (some c0)).take limit).getLast hpagene).sortKey) x.sortKey = true
                · rw [hx, lexLt_trans _ _ _ hc0 hx]
                  rfl
                · rw [Bool.eq_false_iff.mpr hx]
                  rfl
            _ = (all.filter (fun o => lexLt c0 o.sortKey)).filter
                  (fun o => lexLt ((((afterCursor all (some c0)).take limit).getLast hpagene).sortKey) o.sortKey) := by
                rw [List.filter_filter]
            _ = (afterCursor all (some c0)).drop limit := hfilter
      have hlen' : (afterCursor all
          (some (((afterCursor all cur).take limit).getLast hpagene).sortKey)).length ≤ fuel * limit := by
        rw [hstep, List.length_drop]
        rw [Nat.succ_mul] at hlen
        exact Nat.sub_le_iff_le_add.mpr hlen
      have ih := walkPages_eq all limit hl hs fuel _ hlen'
      show (match pageQuery all limit cur with
        | (page, none) => page
        | (page, some c) => page ++ walkPages all limit fuel (some c)) = afterCursor all cur
      rw [pageQuery, if_pos hbig, hget]
      dsimp only [Option.map]
      rw [ih, hstep, hsplit]
    · show (match pageQuery all limit cur with
        | (page, none) => page
        | (page, some c) => page ++ walkPages all limit fuel (some c)) = afterCursor all cur
      rw [pageQuery, if_neg hbig]
      dsimp only
      exact List.take_of_length_le (by omega)

/-! ## Reference data and ingestion -/

/-- One ASCII decimal digit byte. -/
def digitVal (c : Nat) : Option Nat :=
  if 48 ≤ c ∧ c ≤ 57 then some (c - 48) else none

/-- Modelled from the spec: parse a byte string in the canonical
`YYYY-MM-DDTHH:MM:SS.mmmZ` form, rejecting anything else. -/
def parseTimestamp (s : List Nat) : Option Timestamp :=
  match s with
  | [y1, y2, y3, y4, 45, mo1, mo2, 45, d1, d2, 84, h1, h2, 58, mi1, mi2,
      58, s1, s2, 46, ms1, ms2, ms3, 90] => do
    let y ← (do pure (1000 * (← digitVal y1) + 100 * (← digitVal y2) +
      10 * (← digitVal y3) + (← digitVal y4)))
    let mo ← (do pure (10 * (← digitVal mo1) + (← digitVal mo2)))
    let d ← (do pure (10 * (← digitVal d1) + (← digitVal d2)))
    let h ← (do pure (10 * (← digitVal h1) + (← digitVal h2)))
    let mi ← (do pure (10 * (← digitVal mi1) + (← digitVal mi2)))
    let sec ← (do pure (10 * (← digitVal s1) + (← digitVal s2)))
    let ms ← (do pure (100 * (← digitVal ms1) + 10 * (← digitVal ms2) +
      (← digitVal ms3)))
    let t : Timestamp := ⟨y, mo, d, h, mi, sec, ms⟩
    if t.valid then some t else none
  | _ => none

/-- A metric reference-data entry. -/
structure MetricDef where
  id : Int
  name : String
  medium : String
deriving DecidableEq

/-- A unit reference-data entry. -/
structure UnitDef where
  id : Int
  name : String
deriving DecidableEq

/-- The immutable reference datasets loaded at process start. -/
structure RefData where
  instruments : List String
  metrics : List MetricDef
  units : List UnitDef
deriving DecidableEq

/-- Resolve a metric id against the loaded reference data. -/
def findMetric (refd : RefData) (mid : Int) : Option MetricDef :=
  refd.metrics.find? (fun d => d.id == mid)

/-- Resolve a unit id against the loaded reference data. -/
def findUnit (refd : RefData) (uid : Int) : Option UnitDef :=
  refd.units.find? (fun d => d.id == uid)

/-- The error taxonomy of the service. -/
inductive ApiError where
  | validationError (msg : String)
  | notFound (msg : String)
deriving DecidableEq

/-- An incoming observation payload, before validation; the timestamp is
still a raw byte string. -/
structure RawObservation where
  instrument_id : String
  timestamp : List Nat
  metric_id : Int
  unit_id : Int
  value : Rat
  stderr : Option Rat
deriving DecidableEq

/-- Modelled from the spec: validate one observation payload and persist
it.  The instrument id must be non-empty, the timestamp must parse in the
canonical form, and the metric and unit ids must resolve against the loaded
reference data; a payload failing validation is rejected with a
`ValidationError` and the store is returned unchanged, otherwise the record
(with the denormalised reference names) is upserted. -/
def createObservation (refd : RefData) (s : Store) (raw : RawObservation) :
    Except ApiError Observation × Store :=
  if raw.instrument_id = "" then
    (Except.error (ApiError.validationError "instrument_id must not be empty"), s)
  else
    match parseTimestamp raw.timestamp with
    | none =>
      (Except.error (ApiError.validationError "timestamp is not a canonical ISO-8601 string"), s)
    | some ts =>
      match findMetric refd raw.metric_id with
      | none => (Except.error (ApiError.validationError "unknown metric_id"), s)
      | some md =>
        match findUnit refd raw.unit_id with
        | none => (Except.error (ApiError.validationError "unknown unit_id"), s)
        | some ud =>
          let o : Observation :=
            { instrument_id := raw.instrument_id
              datetime := ts
              metric_id := raw.metric_id
              unit_id := raw.unit_id
              value := raw.value
              stderr := raw.stderr
              medium := md.medium
              metric_name := md.name
              unit_name := ud.name }
          (Except.ok o, putObservation s o)

/-- An incoming HTTP request carrying the API-key header and an
observation payload. -/
structure ApiRequest where
  header_api_key : Option String
  payload : RawObservation
deriving DecidableEq

/-- Modelled from the spec: the authentication middleware sits in front of
the data layer; a request whose `X-API-Key` header does not match the
configured static key is rejected with 401 before the store is touched,
otherwise the ingestion handler runs (201 on success, 400 on validation
failure). -/
def handleCreateRequest (apiKey : String) (refd : RefData) (s : Store)
    (req : ApiRequest) : Nat × Store :=
  if req.header_api_key = some apiKey then
    match createObservation refd s req.payload with
    | (Except.ok _, s') => (201, s')
    | (Except.error _, s') => (400, s')
  else (401, s)

/-! ## Infrastructure stack

Embedding of `lewas-backend-infra/lib/lewas-backend-infra-stack.ts`: the
constructor reads three environment variables, throws if any is missing
(in JavaScript an unset variable and an empty string are both falsy), then
declares the observations table, its two global secondary indexes, the
containerised Lambda function with the three variables in its environment,
and an unauthenticated function URL. -/

/-- A DynamoDB attribute type. -/
inductive AttributeType where
  | string
  | number
deriving DecidableEq

/-- A key attribute declaration: attribute name and type. -/
structure KeyAttribute where
  name : String
  attrType : AttributeType
deriving DecidableEq

/-- The table billing mode. -/
inductive BillingMode where
  | payPerRequest
deriving DecidableEq

/-- The CloudFormation removal policy of a resource. -/
inductive RemovalPolicy where
  | retain
  | destroy
deriving DecidableEq

/-- GSI projection type. -/
inductive ProjectionType where
  | all
deriving DecidableEq

/-- A global secondary index declaration. -/
structure GlobalSecondaryIndex where
  indexName : String
  partitionKey : KeyAttribute
  sortKey : KeyAttribute
  projectionType : ProjectionType
deriving DecidableEq

/-- A DynamoDB table declaration. -/
structure TableDecl where
  tableName : String
  partitionKey : KeyAttribute
  sortKey : KeyAttribute
  billingMode : BillingMode
  removalPolicy : RemovalPolicy
  globalSecondaryIndexes : List GlobalSecondaryIndex
deriving DecidableEq

/-- The auth type of a Lambda function URL. -/
inductive FunctionUrlAuthType where
  | authNone
  | awsIam
deriving DecidableEq

/-- The Lambda function declaration (the parts the claims are about). -/
structure FunctionDecl where
  memorySize : Nat
  timeoutSeconds : Nat
  environment : List (String × String)
deriving DecidableEq

/-- A Lambda function URL declaration. -/
structure FunctionUrlDecl where
  authType : FunctionUrlAuthType
deriving DecidableEq

/-- The synthesized stack. -/
structure Stack where
  observationsTable : TableDecl
  apiFunction : FunctionDecl
  functionUrl : FunctionUrlDecl
deriving DecidableEq

/-- The process environment read by the stack constructor. -/
structure Env where
  api_key : Option String
  dynamodb_table_name : Option String
  dynamodb_table_name_animal : Option String
deriving DecidableEq

/-- The observations table as declared in the stack: composite primary key
`sensor_id` (string) / `datetime` (string), pay-per-request billing,
RETAIN removal policy, and the two datetime-sorted secondary indexes. -/
def observationsTableDecl (tableName : String) : TableDecl :=
  { tableName := tableName
    partitionKey := { name := "sensor_id", attrType := AttributeType.string }
    sortKey := { name := "datetime", attrType := AttributeType.string }
    billingMode := BillingMode.payPerRequest
    removalPolicy := RemovalPolicy.retain
    globalSecondaryIndexes :=
      [ { indexName := "metric_id-datetime-index"
          partitionKey := { name := "metric_id", attrType := AttributeType.number }
          sortKey := { name := "datetime", attrType := AttributeType.string }
          projectionType := ProjectionType.all },
        { indexName := "unit_id-datetime-index"
          partitionKey := { name := "unit_id", attrType := AttributeType.number }
          sortKey := { name := "datetime", attrType := AttributeType.string }
          projectionType := ProjectionType.all } ] }

/-- The stack constructor: check the three environment variables first
(JavaScript falsiness: unset or empty both throw), then declare the
resources. -/
def mkStack (env : Env) : Except String Stack :=
  let apiKey := env.api_key.getD ""
  if apiKey = "" then
    Except.error "API_KEY environment variable is not set"
  else
    let tableName := env.dynamodb_table_name.getD ""
    if tableName = "" then
      Except.error "DYNAMODB_TABLE_NAME environment variable is not set"
    else
      let animalTableName := env.dynamodb_table_name_animal.getD ""
      if animalTableName = "" then
        Except.error "DYNAMODB_TABLE_NAME_ANIMAL environment variable is not set"
      else
        Except.ok
          { observationsTable := observationsTableDecl tableName
            apiFunction :=
              { memorySize := 512
                timeoutSeconds := 60
                environment :=
                  [("API_KEY", apiKey),
                   ("DYNAMODB_TABLE_NAME", tableName),
                   ("DYNAMODB_TABLE_NAME_ANIMAL", animalTableName)] }
            functionUrl := { authType := FunctionUrlAuthType.authNone } }

/-- Modelled from the spec and the CDK removal-policy semantics the stack
comments rely on: deleting (or replacing) the stack destroys a table's data
unless the table is declared with the RETAIN removal policy, in which case
the table and its data are left unchanged. -/
def tableDataAfterStackDeletion (t : TableDecl) (data : Store) : Option Store :=
  match t.removalPolicy with
  | RemovalPolicy.retain => some data
  | RemovalPolicy.destroy => none

/-- A successfully synthesized stack declares the observations table for
the configured table name. -/
theorem mkStack_ok_table (env : Env) (st : Stack) (h : mkStack env = Except.ok st) :
    st.observationsTable = observationsTableDecl (env.dynamodb_table_name.getD "") := by
  unfold mkStack at h
  dsimp only at h
  split at h
  · cases h
  · split at h
    · cases h
    · split at h
      · cases h
      · cases h
        rfl

/-! ## Bridging lemmas between stored keys and chronological order -/

theorem lexLe_render_left (t : Timestamp) (o : Observation)
    (ht : t.valid = true) (ho : o.datetime.valid = true) :
    lexLe (renderTs t) o.sortKey = tsLe t o.datetime := by
  unfold lexLe tsLe Observation.sortKey
  rw [lexLt_renderTs o.datetime t ho ht]

theorem lexLe_render_right (o : Observation) (t : Timestamp)
    (ho : o.datetime.valid = true) (ht : t.valid = true) :
    lexLe o.sortKey (renderTs t) = tsLe o.datetime t := by
  unfold lexLe tsLe Observation.sortKey
  rw [lexLt_renderTs t o.datetime ht ho]

theorem sameKey_false_symm (a b : Observation) (h : sameKey a b = false) :
    sameKey b a = false := by
  by_cases hc : sameKey b a = true
  · rw [sameKey_symm b a hc] at h
    cases h
  · simpa using hc

theorem sortKey_ne_of_sameKey_false (a b : Observation)
    (hinst : a.instrument_id = b.instrument_id) (h : sameKey a b = false) :
    a.sortKey ≠ b.sortKey := by
  intro hk
  have : sameKey a b = true := by
    simp [sameKey, hinst, hk]
  rw [this] at h
  cases h

theorem latestFor_some_inst (s : Store) (iid : String) (m : Observation)
    (h : latestFor s iid = some m) : m.instrument_id = iid := by
  have hm := maxByKey_mem _ _ h
  have := List.of_mem_filter hm
  simpa using this

theorem latestFor_some_mem (s : Store) (iid : String) (m : Observation)
    (h : latestFor s iid = some m) : m ∈ s :=
  List.mem_of_mem_filter (maxByKey_mem _ _ h)

/-- In the latest-per-instrument listing over distinct instrument ids, the
records for one id with a latest observation form exactly that single
record. -/
theorem filterMap_latest_singleton (s : Store) :
    ∀ (ids : List String), ids.Nodup → ∀ (iid : String) (m : Observation),
      iid ∈ ids → latestFor s iid = some m →
      (ids.filterMap (fun i => latestFor s i)).filter
        (fun x => x.instrument_id == iid) = [m]
  | [], _, iid, m, hmem, _ => absurd hmem (List.not_mem_nil iid)
  | i :: rest, hnd, iid, m, hmem, hlatest => by
    have hnotin : i ∉ rest := (List.nodup_cons.mp hnd).1
    have hndrest : rest.Nodup := (List.nodup_cons.mp hnd).2
    rw [List.filterMap_cons]
    rcases List.mem_cons.mp hmem with hii | hrest
    · subst hii
      rw [hlatest]
      dsimp only
      rw [List.filter_cons_of_pos (by simp [latestFor_some_inst s iid m hlatest])]
      have htail : (rest.filterMap (fun i => latestFor s i)).filter
          (fun x => x.instrument_id == iid) = [] := by
        rw [List.filter_eq_nil_iff]
        intro x hx
        obtain ⟨j, hj, hjx⟩ := List.mem_filterMap.mp hx
        have hxj : x.instrument_id = j := latestFor_some_inst s j x hjx
        have hji : j ≠ iid := fun hc => hnotin (hc ▸ hj)
        simp [hxj, hji]
      rw [htail]
    · have hii : i ≠ iid := fun hc => hnotin (hc ▸ hrest)
      have ih := filterMap_latest_singleton s rest hndrest iid m hrest hlatest
      cases hl : latestFor s i with
      | none => exact ih
      | some m' =>
        have hm'i : m'.instrument_id = i := latestFor_some_inst s i m' hl
        dsimp only
        rw [List.filter_cons_of_neg (by simp [hm'i, hii])]
        exact ih

/-! ## Concrete fixtures used by the witnesses -/

/-- A concrete environment with all three variables set. -/
def env0 : Env :=
  { api_key := some "test-key"
    dynamodb_table_name := some "lewas-observations"
    dynamodb_table_name_animal := some "lewas-animal" }

/-- The stack synthesized from `env0`. -/
def stack0 : Stack :=
  { observationsTable := observationsTableDecl "lewas-observations"
    apiFunction :=
      { memorySize := 512
        timeoutSeconds := 60
        environment :=
          [("API_KEY", "test-key"),
           ("DYNAMODB_TABLE_NAME", "lewas-observations"),
           ("DYNAMODB_TABLE_NAME_ANIMAL", "lewas-animal")] }
    functionUrl := { authType := FunctionUrlAuthType.authNone } }

theorem mkStack_env0 : mkStack env0 = Except.ok stack0 := by rfl

def ts1 : Timestamp := ⟨2025, 4, 8, 20, 12, 30, 884⟩

def ts2 : Timestamp := ⟨2025, 4, 8, 20, 12, 31, 100⟩

def ts3 : Timestamp := ⟨2025, 4, 8, 20, 12, 32, 0⟩

def obs1 : Observation :=
  { instrument_id := "sonde"
    datetime := ts1
    metric_id := 5
    unit_id := 2
    value := 10
    stderr := none
    medium := "water"
    metric_name := "temperature"
    unit_name := "celsius" }

def obs2 : Observation := { obs1 with datetime := ts2, value := 11 }

def obs3 : Observation := { obs1 with datetime := ts3, value := 12 }

/-- Same primary key as `obs1`, different value. -/
def obs1b : Observation := { obs1 with value := 99 }

def refd0 : RefData :=
  { instruments := ["sonde", "weatherstation"]
    metrics := [{ id := 5, name := "temperature", medium := "water" }]
    units := [{ id := 2, name := "celsius" }] }

/-! ## The claims -/

/-- C1: the persisted observation schema uses a composite primary key whose
partition component is the instrument identifier (`sensor_id`) as a string
and whose sort component is the canonical ISO-8601 timestamp (`datetime`)
as a string; every synthesized stack declares the observations table with
exactly this string/string partition-and-sort key pair. -/
theorem C1_observations_table_string_string_key (env : Env) (st : Stack)
    (h : mkStack env = Except.ok st) :
    st.observationsTable.partitionKey =
      { name := "sensor_id", attrType := AttributeType.string } ∧
    st.observationsTable.sortKey =
      { name := "datetime", attrType := AttributeType.string } := by
  rw [mkStack_ok_table env st h]
  exact ⟨rfl, rfl⟩

theorem C1_witness :
    mkStack env0 = Except.ok stack0 ∧
    (stack0.observationsTable.partitionKey =
      { name := "sensor_id", attrType := AttributeType.string } ∧
    stack0.observationsTable.sortKey =
      { name := "datetime", attrType := AttributeType.string }) :=
  ⟨mkStack_env0, C1_observations_table_string_string_key env0 stack0 mkStack_env0⟩

/-- C2: a request that does not carry the valid static API key in its
request header is rejected with 401 before it reaches the data layer, and
the observation store is left untouched. -/
theorem C2_unauthenticated_rejected_before_data_layer (apiKey : String)
    (refd : RefData) (s : Store) (req : ApiRequest)
    (h : req.header_api_key ≠ some apiKey) :
    (handleCreateRequest apiKey refd s req).1 = 401 ∧
    (handleCreateRequest apiKey refd s req).2 = s := by
  unfold handleCreateRequest
  rw [if_neg h]
  exact ⟨rfl, rfl⟩

def req0 : ApiRequest :=
  { header_api_key := none
    payload :=
      { instrument_id := "sonde"
        timestamp := renderTs ts1
        metric_id := 5
        unit_id := 2
        value := 10
        stderr := none } }

theorem C2_witness :
    req0.header_api_key ≠ some "test-key" ∧
    ((handleCreateRequest "test-key" refd0 [obs1] req0).1 = 401 ∧
     (handleCreateRequest "test-key" refd0 [obs1] req0).2 = [obs1]) :=
  ⟨by decide,
    C2_unauthenticated_rejected_before_data_layer "test-key" refd0 [obs1] req0
      (by decide)⟩

/-- C3: the pair `(instrument_id, timestamp)` is the primary identity:
writing two observations with the identical composite key leaves the store
with exactly one record under that key, carrying the second write's values;
the overwrite never duplicates, and records under other keys are
untouched. -/
theorem C3_upsert_overwrites_single_record (s : Store) (o1 o2 : Observation)
    (h : sameKey o1 o2 = true) :
    putObservation (putObservation s o1) o2 =
      o2 :: s.filter (fun x => !(sameKey x o2)) ∧
    (putObservation (putObservation s o1) o2).filter
      (fun x => sameKey x o2) = [o2] := by
  have hmain : putObservation (putObservation s o1) o2 =
      o2 :: s.filter (fun x => !(sameKey x o2)) := by
    unfold putObservation
    congr 1
    rw [List.filter_cons_of_neg (by simp [h])]
    rw [List.filter_filter]
    apply List.filter_congr
    intro x _
    by_cases h2 : sameKey x o2 = true
    · simp [h2]
    · have h2' : sameKey x o2 = false := by simpa using h2
      have h1' : sameKey x o1 = false := by
        by_cases hc : sameKey x o1 = true
        · rw [sameKey_trans x o1 o2 hc h] at h2'
          cases h2'
        · simpa using hc
      simp [h2', h1']
  refine ⟨hmain, ?_⟩
  rw [hmain]
  have hcons : List.filter (fun x => sameKey x o2)
      (o2 :: List.filter (fun x => !sameKey x o2) s) =
      o2 :: List.filter (fun x => sameKey x o2)
        (List.filter (fun x => !sameKey x o2) s) := by
    simp [List.filter_cons, sameKey_refl]
  rw [hcons, List.filter_filter]
  have hnil : List.filter (fun x => sameKey x o2 && !(sameKey x o2)) s = [] := by
    rw [List.filter_eq_nil_iff]
    intro x _
    cases hx : sameKey x o2 <;> simp [hx]
  rw [hnil]

theorem C3_witness :
    sameKey obs1 obs1b = true ∧
    (putObservation (putObservation [obs2] obs1) obs1b =
      obs1b :: [obs2].filter (fun x => !(sameKey x obs1b)) ∧
    (putObservation (putObservation [obs2] obs1) obs1b).filter
      (fun x => sameKey x obs1b) = [obs1b]) :=
  ⟨by decide, C3_upsert_overwrites_single_record [obs2] obs1 obs1b (by decide)⟩

/-- C4: every synthesized observations table declares the two secondary
index views on `(metric_id, datetime)` and `(unit_id, datetime)`, and an
observation that is written is retrievable through all three filter
dimensions — instrument, metric and unit — as the same record with
identical field values. -/
theorem C4_written_observation_visible_in_all_views :
    (∀ tableName : String,
      (observationsTableDecl tableName).globalSecondaryIndexes =
        [ { indexName := "metric_id-datetime-index"
            partitionKey := { name := "metric_id", attrType := AttributeType.number }
            sortKey := { name := "datetime", attrType := AttributeType.string }
            projectionType := ProjectionType.all },
          { indexName := "unit_id-datetime-index"
            partitionKey := { name := "unit_id", attrType := AttributeType.number }
            sortKey := { name := "datetime", attrType := AttributeType.string }
            projectionType := ProjectionType.all } ]) ∧
    (∀ (s : Store) (o : Observation),
      o ∈ queryByInstrument (putObservation s o) o.instrument_id ∧
      o ∈ queryByMetric (putObservation s o) o.metric_id ∧
      o ∈ queryByUnit (putObservation s o) o.unit_id) := by
  constructor
  · intro _
    rfl
  · intro s o
    refine ⟨?_, ?_, ?_⟩ <;>
      simp [queryByInstrument, queryByMetric, queryByUnit, putObservation,
        List.mem_filter]

/-- C5: canonical timestamps compare chronologically under plain
lexicographic string ordering, so a range query with inclusive bounds
`[start, end]` over one instrument's observations with distinct timestamps
returns exactly the observations inside the bound, in strictly increasing
timestamp order. -/
theorem C5_range_query_exact_and_increasing (s : Store) (iid : String)
    (tstart tend : Timestamp)
    (hval : ∀ o ∈ s, o.datetime.valid = true)
    (hst : tstart.valid = true) (hen : tend.valid = true)
    (hdistinct : List.Pairwise (fun o1 o2 =>
      o1.instrument_id = iid → o2.instrument_id = iid →
        o1.datetime ≠ o2.datetime) s) :
    (∀ t1 t2 : Timestamp, t1.valid = true → t2.valid = true →
      lexLt (renderTs t1) (renderTs t2) = tsLt t1 t2) ∧
    (∀ o : Observation, o ∈ queryByInstrumentRange s iid tstart tend ↔
      (o ∈ s ∧ o.instrument_id = iid ∧ tsLe tstart o.datetime = true ∧
        tsLe o.datetime tend = true)) ∧
    List.Pairwise (fun o1 o2 => tsLt o1.datetime o2.datetime = true)
      (queryByInstrumentRange s iid tstart tend) := by
  have hfc : List.filter (fun o =>
        o.instrument_id == iid && lexLe (renderTs tstart) o.sortKey &&
          lexLe o.sortKey (renderTs tend)) s =
      List.filter (fun o =>
        o.instrument_id == iid && tsLe tstart o.datetime &&
          tsLe o.datetime tend) s := by
    apply List.filter_congr
    intro x hx
    rw [lexLe_render_left tstart x hst (hval x hx),
      lexLe_render_right x tend (hval x hx) hen]
  refine ⟨fun t1 t2 h1 h2 => lexLt_renderTs t1 t2 h1 h2, ?_, ?_⟩
  · intro o
    unfold queryByInstrumentRange
    rw [List.mem_insertionSort, hfc, List.mem_filter]
    simp [Bool.and_eq_true, beq_iff_eq, and_assoc]
  · unfold queryByInstrumentRange
    have hsub : List.Pairwise (fun o1 o2 =>
        o1.instrument_id = iid → o2.instrument_id = iid →
          o1.datetime ≠ o2.datetime)
        (List.filter (fun o =>
          o.instrument_id == iid && lexLe (renderTs tstart) o.sortKey &&
            lexLe o.sortKey (renderTs tend)) s) :=
      List.Pairwise.sublist (List.filter_sublist s) hdistinct
    have hq : List.Pairwise (fun o1 o2 =>
        o1.instrument_id = iid → o2.instrument_id = iid →
          o1.datetime ≠ o2.datetime)
        (List.insertionSort obsLe (List.filter (fun o =>
          o.instrument_id == iid && lexLe (renderTs tstart) o.sortKey &&
            lexLe o.sortKey (renderTs tend)) s)) :=
      (List.perm_insertionSort obsLe _).symm.pairwise hsub
        (fun hxy h1 h2 => Ne.symm (hxy h2 h1))
    have hkeys : List.Pairwise (fun o1 o2 => o1.sortKey ≠ o2.sortKey)
        (List.insertionSort obsLe (List.filter (fun o =>
          o.instrument_id == iid && lexLe (renderTs tstart) o.sortKey &&
            lexLe o.sortKey (renderTs tend)) s)) := by
      refine hq.imp_of_mem ?_
      intro a b ha hb hab
      have ha' := List.mem_filter.mp ((List.mem_insertionSort _).mp ha)
      have hb' := List.mem_filter.mp ((List.mem_insertionSort _).mp hb)
      have hai : a.instrument_id = iid := by
        have h2 := ha'.2
        simp only [Bool.and_eq_true, beq_iff_eq] at h2
        exact h2.1.1
      have hbi : b.instrument_id = iid := by
        have h2 := hb'.2
        simp only [Bool.and_eq_true, beq_iff_eq] at h2
        exact h2.1.1
      intro hk
      exact (hab hai hbi)
        (renderTs_inj _ _ (hval a ha'.1) (hval b hb'.1) hk)
    have hstrict : List.Pairwise obsLt
        (List.insertionSort obsLe (List.filter (fun o =>
          o.instrument_id == iid && lexLe (renderTs tstart) o.sortKey &&
            lexLe o.sortKey (renderTs tend)) s)) :=
      pairwise_obsLt_of_sorted _ (List.sorted_insertionSort obsLe _) hkeys
    refine hstrict.imp_of_mem ?_
    intro a b ha hb hab
    have ha' := List.mem_filter.mp ((List.mem_insertionSort _).mp ha)
    have hb' := List.mem_filter.mp ((List.mem_insertionSort _).mp hb)
    rw [← lexLt_renderTs a.datetime b.datetime (hval a ha'.1) (hval b hb'.1)]
    exact hab

def s5 : Store := [obs2, obs1]

theorem C5_witness :
    (∀ o ∈ s5, o.datetime.valid = true) ∧
    ts1.valid = true ∧ ts2.valid = true ∧
    List.Pairwise (fun o1 o2 =>
      o1.instrument_id = "sonde" → o2.instrument_id = "sonde" →
        o1.datetime ≠ o2.datetime) s5 ∧
    ((∀ t1 t2 : Timestamp, t1.valid = true → t2.valid = true →
      lexLt (renderTs t1) (renderTs t2) = tsLt t1 t2) ∧
    (∀ o : Observation, o ∈ queryByInstrumentRange s5 "sonde" ts1 ts2 ↔
      (o ∈ s5 ∧ o.instrument_id = "sonde" ∧ tsLe ts1 o.datetime = true ∧
        tsLe o.datetime ts2 = true)) ∧
    List.Pairwise (fun o1 o2 => tsLt o1.datetime o2.datetime = true)
      (queryByInstrumentRange s5 "sonde" ts1 ts2)) :=
  ⟨by decide, by decide, by decide, by decide,
    C5_range_query_exact_and_increasing s5 "sonde" ts1 ts2 (by decide)
      (by decide) (by decide) (by decide)⟩

/-- C6: a write fails with `ValidationError` whenever the instrument id is
empty, the timestamp fails canonical-format parsing, or the referenced
metric or unit id is absent from the loaded reference data; a write that
fails validation is not persisted — the store is unchanged. -/
theorem C6_validation_failure_rejected_not_persisted (refd : RefData)
    (s : Store) (raw : RawObservation)
    (h : raw.instrument_id = "" ∨ parseTimestamp raw.timestamp = none ∨
      findMetric refd raw.metric_id = none ∨ findUnit refd raw.unit_id = none) :
    (∃ msg, (createObservation refd s raw).1 =
      Except.error (ApiError.validationError msg)) ∧
    (createObservation refd s raw).2 = s := by
  unfold createObservation
  by_cases h1 : raw.instrument_id = ""
  · rw [if_pos h1]
    exact ⟨⟨_, rfl⟩, rfl⟩
  · rw [if_neg h1]
    cases hp : parseTimestamp raw.timestamp with
    | none => exact ⟨⟨_, rfl⟩, rfl⟩
    | some ts =>
      cases hm : findMetric refd raw.metric_id with
      | none => exact ⟨⟨_, rfl⟩, rfl⟩
      | some md =>
        cases hu : findUnit refd raw.unit_id with
        | none => exact ⟨⟨_, rfl⟩, rfl⟩
        | some ud =>
          exfalso
          rcases h with h | h | h | h
          · exact h1 h
          · rw [hp] at h; cases h
          · rw [hm] at h; cases h
          · rw [hu] at h; cases h

/-- A payload referencing a metric id absent from the reference data. -/
def rawBad : RawObservation :=
  { instrument_id := "sonde"
    timestamp := renderTs ts1
    metric_id := 99999
    unit_id := 2
    value := 10
    stderr := none }

theorem C6_witness :
    (rawBad.instrument_id = "" ∨ parseTimestamp rawBad.timestamp = none ∨
      findMetric refd0 rawBad.metric_id = none ∨
      findUnit refd0 rawBad.unit_id = none) ∧
    ((∃ msg, (createObservation refd0 [obs1] rawBad).1 =
      Except.error (ApiError.validationError msg)) ∧
    (createObservation refd0 [obs1] rawBad).2 = [obs1]) :=
  ⟨by decide,
    C6_validation_failure_rejected_not_persisted refd0 [obs1] rawBad (by decide)⟩

/-- C7: the latest-per-instrument query returns, for every known
instrument with at least one observation, exactly one record — one
carrying the maximum timestamp among that instrument's observations — and
instruments with zero observations are omitted entirely. -/
theorem C7_latest_per_instrument_correct (instruments : List String)
    (s : Store) (iid : String)
    (hnd : instruments.Nodup) (hmem : iid ∈ instruments)
    (hval : ∀ o ∈ s, o.datetime.valid = true) :
    ((∀ o ∈ s, o.instrument_id ≠ iid) →
      ∀ m ∈ latestPerInstrument instruments s, m.instrument_id ≠ iid) ∧
    (∀ o0 ∈ s, o0.instrument_id = iid →
      ∃ m, (latestPerInstrument instruments s).filter
          (fun x => x.instrument_id == iid) = [m] ∧
        m ∈ s ∧ m.instrument_id = iid ∧
        ∀ o ∈ s, o.instrument_id = iid → tsLe o.datetime m.datetime = true) := by
  constructor
  · intro hno m hm
    obtain ⟨j, hj, hjm⟩ := List.mem_filterMap.mp hm
    exact hno m (latestFor_some_mem s j m hjm)
  · intro o0 ho0 hio0
    have hne : s.filter (fun o => o.instrument_id == iid) ≠ [] := by
      intro hc
      have hmem0 : o0 ∈ s.filter (fun o => o.instrument_id == iid) :=
        List.mem_filter.mpr ⟨ho0, by simp [hio0]⟩
      rw [hc] at hmem0
      cases hmem0
    cases hmx : maxByKey (s.filter (fun o => o.instrument_id == iid)) with
    | none => exact absurd ((maxByKey_eq_none _).mp hmx) hne
    | some m =>
      have hlatest : latestFor s iid = some m := hmx
      refine ⟨m, filterMap_latest_singleton s instruments hnd iid m hmem hlatest,
        latestFor_some_mem s iid m hlatest,
        latestFor_some_inst s iid m hlatest, ?_⟩
      intro o ho hio
      have homem : o ∈ s.filter (fun x => x.instrument_id == iid) :=
        List.mem_filter.mpr ⟨ho, by simp [hio]⟩
      have hmax := maxByKey_max _ m hmx o homem
      have hmm : m ∈ s := latestFor_some_mem s iid m hlatest
      unfold tsLe
      rw [← lexLt_renderTs m.datetime o.datetime (hval m hmm) (hval o ho)]
      simpa [Observation.sortKey] using hmax

theorem C7_witness :
    (["sonde", "weatherstation"] : List String).Nodup ∧
    "sonde" ∈ (["sonde", "weatherstation"] : List String) ∧
    (∀ o ∈ ([obs1, obs2] : Store), o.datetime.valid = true) ∧
    (((∀ o ∈ ([obs1, obs2] : Store), o.instrument_id ≠ "sonde") →
      ∀ m ∈ latestPerInstrument ["sonde", "weatherstation"] [obs1, obs2],
        m.instrument_id ≠ "sonde") ∧
    (∀ o0 ∈ ([obs1, obs2] : Store), o0.instrument_id = "sonde" →
      ∃ m, (latestPerInstrument ["sonde", "weatherstation"] [obs1, obs2]).filter
          (fun x => x.instrument_id == "sonde") = [m] ∧
        m ∈ ([obs1, obs2] : Store) ∧ m.instrument_id = "sonde" ∧
        ∀ o ∈ ([obs1, obs2] : Store), o.instrument_id = "sonde" →
          tsLe o.datetime m.datetime = true)) :=
  ⟨by decide, by decide, by decide,
    C7_latest_per_instrument_correct ["sonde", "weatherstation"] [obs1, obs2]
      "sonde" (by decide) (by decide) (by decide)⟩

/-- C8: for a result set larger than the page limit, walking the pages by
feeding each returned continuation token into a subsequent identical query
yields the full result set with no duplicated record and no missing record
across page boundaries. -/
theorem C8_pagination_no_gaps_no_duplicates (s : Store) (iid : String)
    (limit : Nat) (hl : 0 < limit)
    (hwf : List.Pairwise (fun a b => sameKey a b = false) s) :
    walkPages (queryByInstrument s iid) limit
      (queryByInstrument s iid).length none = queryByInstrument s iid := by
  have hsub : List.Pairwise (fun a b => sameKey a b = false)
      (s.filter (fun o => o.instrument_id == iid)) :=
    List.Pairwise.sublist (List.filter_sublist s) hwf
  have hq : List.Pairwise (fun a b => sameKey a b = false)
      (queryByInstrument s iid) :=
    (List.perm_insertionSort obsLe _).symm.pairwise hsub
      (fun hxy => sameKey_false_symm _ _ hxy)
  have hkeys : List.Pairwise (fun a b => a.sortKey ≠ b.sortKey)
      (queryByInstrument s iid) := by
    refine hq.imp_of_mem ?_
    intro a b ha hb hab
    have ha' := List.mem_filter.mp ((List.mem_insertionSort _).mp ha)
    have hb' := List.mem_filter.mp ((List.mem_insertionSort _).mp hb)
    have hai : a.instrument_id = iid := by simpa using ha'.2
    have hbi : b.instrument_id = iid := by simpa using hb'.2
    exact sortKey_ne_of_sameKey_false a b (hai.trans hbi.symm) hab
  have hstrict : List.Pairwise obsLt (queryByInstrument s iid) :=
    pairwise_obsLt_of_sorted _ (List.sorted_insertionSort obsLe _) hkeys
  refine walkPages_eq (queryByInstrument s iid) limit hl hstrict
    (queryByInstrument s iid).length none ?_
  have h1 : (queryByInstrument s iid).length * 1 ≤
      (queryByInstrument s iid).length * limit :=
    Nat.mul_le_mul_left _ hl
  simpa [afterCursor] using h1

def s8 : Store := [obs1, obs3, obs2]

theorem C8_witness :
    0 < 1 ∧
    List.Pairwise (fun a b => sameKey a b = false) s8 ∧
    walkPages (queryByInstrument s8 "sonde") 1
      (queryByInstrument s8 "sonde").length none = queryByInstrument s8 "sonde" :=
  ⟨by decide, by decide,
    C8_pagination_no_gaps_no_duplicates s8 "sonde" 1 (by decide) (by decide)⟩

theorem getD_empty_iff (o : Option String) :
    o.getD "" = "" ↔ (o = none ∨ o = some "") := by
  cases o <;> simp

/-- C9: the stack constructor fails, before declaring any resource, if and
only if at least one of API_KEY, DYNAMODB_TABLE_NAME or
DYNAMODB_TABLE_NAME_ANIMAL is unset or empty; when all three are present
it completes and threads their values into the function's environment. -/
theorem C9_stack_requires_env_vars (env : Env) :
    ((∃ msg, mkStack env = Except.error msg) ↔
      (env.api_key = none ∨ env.api_key = some "" ∨
       env.dynamodb_table_name = none ∨ env.dynamodb_table_name = some "" ∨
       env.dynamodb_table_name_animal = none ∨
       env.dynamodb_table_name_animal = some "")) ∧
    (∀ st, mkStack env = Except.ok st →
      st.apiFunction.environment =
        [("API_KEY", env.api_key.getD ""),
         ("DYNAMODB_TABLE_NAME", env.dynamodb_table_name.getD ""),
         ("DYNAMODB_TABLE_NAME_ANIMAL",
           env.dynamodb_table_name_animal.getD "")]) := by
  by_cases h1 : env.api_key.getD "" = ""
  · have herr : mkStack env =
        Except.error "API_KEY environment variable is not set" := by
      unfold mkStack
      dsimp only
      rw [if_pos h1]
    refine ⟨⟨fun _ => ?_, fun _ => ⟨_, herr⟩⟩, fun st hst => ?_⟩
    · rcases (getD_empty_iff env.api_key).mp h1 with h | h
      · exact Or.inl h
      · exact Or.inr (Or.inl h)
    · rw [herr] at hst
      cases hst
  · by_cases h2 : env.dynamodb_table_name.getD "" = ""
    · have herr : mkStack env =
          Except.error "DYNAMODB_TABLE_NAME environment variable is not set" := by
        unfold mkStack
        dsimp only
        rw [if_neg h1, if_pos h2]
      refine ⟨⟨fun _ => ?_, fun _ => ⟨_, herr⟩⟩, fun st hst => ?_⟩
      · rcases (getD_empty_iff env.dynamodb_table_name).mp h2 with h | h
        · exact Or.inr (Or.inr (Or.inl h))
        · exact Or.inr (Or.inr (Or.inr (Or.inl h)))
      · rw [herr] at hst
        cases hst
    · by_cases h3 : env.dynamodb_table_name_animal.getD "" = ""
      · have herr : mkStack env = Except.error
            "DYNAMODB_TABLE_NAME_ANIMAL environment variable is not set" := by
          unfold mkStack
          dsimp only
          rw [if_neg h1, if_neg h2, if_pos h3]
        refine ⟨⟨fun _ => ?_, fun _ => ⟨_, herr⟩⟩, fun st hst => ?_⟩
        · rcases (getD_empty_iff env.dynamodb_table_name_animal).mp h3 with h | h
          · exact Or.inr (Or.inr (Or.inr (Or.inr (Or.inl h))))
          · exact Or.inr (Or.inr (Or.inr (Or.inr (Or.inr h))))
        · rw [herr] at hst
          cases hst
      · have hok : mkStack env = Except.ok
            { observationsTable :=
                observationsTableDecl (env.dynamodb_table_name.getD "")
              apiFunction :=
                { memorySize := 512
                  timeoutSeconds := 60
                  environment :=
                    [("API_KEY", env.api_key.getD ""),
                     ("DYNAMODB_TABLE_NAME", env.dynamodb_table_name.getD ""),
                     ("DYNAMODB_TABLE_NAME_ANIMAL",
                       env.dynamodb_table_name_animal.getD "")] }
              functionUrl := { authType := FunctionUrlAuthType.authNone } } := by
          unfold mkStack
          dsimp only
          rw [if_neg h1, if_neg h2, if_neg h3]
        constructor
        · constructor
          · rintro ⟨msg, hmsg⟩
            rw [hok] at hmsg
            cases hmsg
          · intro hor
            exfalso
            rcases hor with h | h | h | h | h | h
            · exact h1 (by rw [h]; rfl)
            · exact h1 (by rw [h]; rfl)
            · exact h2 (by rw [h]; rfl)
            · exact h2 (by rw [h]; rfl)
            · exact h3 (by rw [h]; rfl)
            · exact h3 (by rw [h]; rfl)
        · intro st hst
          rw [hok] at hst
          cases hst
          rfl

theorem C9_witness :
    mkStack env0 = Except.ok stack0 ∧
    stack0.apiFunction.environment =
      [("API_KEY", env0.api_key.getD ""),
       ("DYNAMODB_TABLE_NAME", env0.dynamodb_table_name.getD ""),
       ("DYNAMODB_TABLE_NAME_ANIMAL",
         env0.dynamodb_table_name_animal.getD "")] :=
  ⟨mkStack_env0, (C9_stack_requires_env_vars env0).2 stack0 mkStack_env0⟩

/-- C10: the observations table is declared with removal policy RETAIN, so
deleting or replacing the stack leaves the table and its stored data
unchanged. -/
theorem C10_retain_preserves_table_data (env : Env) (st : Stack)
    (h : mkStack env = Except.ok st) (data : Store) :
    tableDataAfterStackDeletion st.observationsTable data = some data := by
  rw [mkStack_ok_table env st h]
  rfl

theorem C10_witness :
    mkStack env0 = Except.ok stack0 ∧
    tableDataAfterStackDeletion stack0.observationsTable [obs1] = some [obs1] :=
  ⟨mkStack_env0, C10_retain_preserves_table_data env0 stack0 mkStack_env0 [obs1]⟩

end LewasVerify
